import Mathlib

/-!
Shallow embedding of the gorss feed reader's core subsystems (feed refresh
engine and snapshot lifecycle), translated from the Go sources
`srv/feed.go`, `srv/handlers.go` and `db/backup.go`, together with
theorems settling the specification claims about them.

Time is modelled as `Int` nanoseconds, matching Go's `time.Time`
monotonic-free arithmetic; `time.Duration` values are the same unit.
-/

namespace GoRSS

/-- One hour in nanoseconds (`time.Hour`). -/
def hourNS : Int := 3600 * 1000000000

/-- One day in nanoseconds (24 hours). -/
def dayNS : Int := 24 * hourNS

/-- Models Go's `t.AddDate(0, 0, d)` for the fixed-offset clock used here:
shifting a timestamp by `d` calendar days of 24 hours. -/
def addDateDays (t : Int) (d : Int) : Int := t + d * dayNS

/-- A feed row as stored by the Store (`dbgen.Feed`), restricted to the
fields the refresh engine reads and writes. `lastUpdated` is the nullable
attempt timestamp (`*time.Time`), `errorCount` the consecutive error
count. -/
structure Feed where
  id : Int
  url : String
  title : String
  siteUrl : String
  descr : String
  etag : String
  lastModified : String
  errorCount : Nat
  lastUpdated : Option Int
  lastError : Option String
deriving Repr, DecidableEq

/-- `maxBackoffHours` caps exponential backoff at 24 hours (feed.go). -/
def maxBackoffHours : Nat := 24

/-- Translation of `shouldSkipFeed` (feed.go): a feed with consecutive
errors is skipped this refresh cycle while inside its exponential backoff
window. The `none` branch of the final match is unreachable because of the
leading guard (in Go the pointer is dereferenced there). -/
def shouldSkipFeed (now : Int) (feed : Feed) : Bool :=
  if feed.errorCount == 0 || feed.lastUpdated.isNone then false
  else
    let backoffHours := 1 <<< min feed.errorCount 5
    let backoffHours := if backoffHours > maxBackoffHours then maxBackoffHours else backoffHours
    match feed.lastUpdated with
    | none => false
    | some lastAttempt =>
      let nextAllowed := lastAttempt + (backoffHours : Int) * hourNS
      decide (now < nextAllowed)

/-- A normalized feed item produced by the fetcher (`FeedItem` in feed.go).
`publishedAt` is nullable (`*time.Time`). -/
structure FeedItem where
  guid : String
  url : String
  title : String
  author : String
  content : String
  summary : String
  publishedAt : Option Int
deriving Repr, DecidableEq

/-- The keep-condition of `filterOldItems`:
`item.PublishedAt == nil || item.PublishedAt.After(cutoff)`. -/
def keepItem (cutoff : Int) (item : FeedItem) : Bool :=
  match item.publishedAt with
  | none => true
  | some t => decide (cutoff < t)

/-- Translation of `filterOldItems` (feed.go): the Go loop appends, in
order, every item with no published date or published strictly after the
cutoff to an accumulator. -/
def filterOldItems (items : List FeedItem) (cutoff : Int) : List FeedItem :=
  items.foldl (fun filtered item =>
    if keepItem cutoff item then filtered ++ [item] else filtered) []

/-- The parsed feed data returned by the fetcher (`FeedFetchResult` in
feed.go), including the HTTP caching headers of the response. -/
structure FeedFetchResult where
  title : String
  siteURL : String
  descr : String
  items : List FeedItem
  etag : String
  lastModified : String
deriving Repr, DecidableEq

/-- Outcome of one fetch of a feed URL: `notModified` is the sentinel
`errNotModified` (feed.go), `fetchError` any other non-nil error (with its
message), `success` a parsed result. -/
inductive FetchOutcome where
  | notModified : FetchOutcome
  | fetchError : String → FetchOutcome
  | success : FeedFetchResult → FetchOutcome
deriving Repr, DecidableEq

/-- An item as produced by the gofeed parser (`gofeed.Item`), restricted to
the fields `fetchWithCaching` reads. `author` is a nullable pointer. -/
structure ParsedItem where
  guid : String
  link : String
  title : String
  content : String
  descr : String
  author : Option String
  publishedParsed : Option Int
  updatedParsed : Option Int
deriving Repr, DecidableEq

/-- A parsed feed document (`gofeed.Feed`), restricted to the fields read. -/
structure ParsedFeed where
  title : String
  link : String
  descr : String
  items : List ParsedItem
deriving Repr, DecidableEq

/-- The per-item normalization loop body of `fetchWithCaching` (feed.go):
the natural key falls back to the item link when the guid is empty, the
author name defaults to empty, and the published time falls back from
`PublishedParsed` to `UpdatedParsed` to nil. -/
def toFeedItem (item : ParsedItem) : FeedItem :=
  { guid := if item.guid = "" then item.link else item.guid
    url := item.link
    title := item.title
    author := match item.author with | some a => a | none => ""
    content := item.content
    summary := item.descr
    publishedAt := match item.publishedParsed with
      | some t => some t
      | none => item.updatedParsed }

/-- The possible results of the HTTP round trip performed by
`fetchWithCaching`: a request-creation failure, a transport failure from
`client.Do`, or a response carrying a status code, the `ETag` and
`Last-Modified` response headers, and a body. -/
inductive HTTPResult where
  | requestError : String → HTTPResult
  | transportError : String → HTTPResult
  | response : Nat → String → String → String → HTTPResult
deriving Repr, DecidableEq

/-- `http.StatusNotModified`. -/
def statusNotModified : Nat := 304

/-- Translation of `fetchWithCaching` (feed.go). The gofeed parser is an
oracle `parse` from the response body to either an error message or a
parsed document. The function inspects the response status only for
equality with 304; any other response is handed to the parser. -/
def fetchWithCaching (parse : String → Except String ParsedFeed)
    (http : HTTPResult) : FetchOutcome :=
  match http with
  | HTTPResult.requestError msg => FetchOutcome.fetchError ("create request: " ++ msg)
  | HTTPResult.transportError msg => FetchOutcome.fetchError ("fetch: " ++ msg)
  | HTTPResult.response status etagHeader lastModifiedHeader body =>
    if status = statusNotModified then FetchOutcome.notModified
    else
      match parse body with
      | Except.error e => FetchOutcome.fetchError ("parse feed: " ++ e)
      | Except.ok feed =>
        FetchOutcome.success
          { title := feed.title
            siteURL := feed.link
            descr := feed.descr
            items := feed.items.map toFeedItem
            etag := etagHeader
            lastModified := lastModifiedHeader }

/-- The parameter record of the `UpdateFeedMeta` store query
(db/queries.sql), minus the row id. -/
structure UpdateFeedMetaParams where
  title : String
  siteUrl : String
  descr : String
  lastUpdated : Option Int
  lastError : Option String
  etag : String
  lastModified : String
  errorCount : Nat
deriving Repr, DecidableEq

/-- Effect of the `UpdateFeedMeta` query on the addressed feed row: every
listed column is overwritten with the given value. -/
def updateFeedMeta (f : Feed) (p : UpdateFeedMetaParams) : Feed :=
  { f with
    title := p.title
    siteUrl := p.siteUrl
    descr := p.descr
    lastUpdated := p.lastUpdated
    lastError := p.lastError
    etag := p.etag
    lastModified := p.lastModified
    errorCount := p.errorCount }

/-- An article row (`articles` table), keyed by the natural key
`(feed_id, guid)`. -/
structure Article where
  feedId : Int
  guid : String
  url : String
  title : String
  author : String
  content : String
  summary : String
  publishedAt : Option Int
deriving Repr, DecidableEq

/-- Effect of the `UpsertArticle` query (db/queries.sql): insert on a fresh
natural key, otherwise overwrite the mutable columns of the existing row. -/
def upsertArticle (articles : List Article) (a : Article) : List Article :=
  if articles.any (fun b => b.feedId == a.feedId && b.guid == a.guid) then
    articles.map (fun b => if b.feedId == a.feedId && b.guid == a.guid then a else b)
  else
    articles ++ [a]

/-- The `UpsertArticleParams` built from a fetched item in
`refreshFeedInternal` (feed.go). -/
def articleOfItem (feedId : Int) (item : FeedItem) : Article :=
  { feedId := feedId
    guid := item.guid
    url := item.url
    title := item.title
    author := item.author
    content := item.content
    summary := item.summary
    publishedAt := item.publishedAt }

/-- The feed's persisted state visible to one refresh step: its row in the
`feeds` table plus the article rows of the store. -/
structure RefreshState where
  feed : Feed
  articles : List Article
deriving Repr, DecidableEq

/-- The age-filter block of `refreshFeedInternal` (feed.go lines 228-236):
when `PurgeDays > 0`, drop items older than `now` minus `PurgeDays` days. -/
def refreshFilterStep (purgeDays : Int) (now : Int) (items : List FeedItem) : List FeedItem :=
  if purgeDays > 0 then filterOldItems items (addDateDays now (-purgeDays)) else items

/-- The age-filter block of `HandleSubscribe` (handlers.go lines 889-893),
applied to the initial fetch on subscribe. -/
def subscribeFilterStep (purgeDays : Int) (now : Int) (items : List FeedItem) : List FeedItem :=
  if purgeDays > 0 then filterOldItems items (addDateDays now (-purgeDays)) else items

/-- The age-filter block of `importSingleFeed` (handlers.go lines 1664-1668),
applied to the fetch done for each OPML-imported feed. -/
def importFilterStep (purgeDays : Int) (now : Int) (items : List FeedItem) : List FeedItem :=
  if purgeDays > 0 then filterOldItems items (addDateDays now (-purgeDays)) else items

/-- Translation of `refreshFeedInternal` (feed.go). The fetch outcome of
`FetchConditional` is passed in (the network is external); the returned
pair is the new store state and the error returned to the caller (`none`
for nil). Store writes that Go fires and forgets (`_ = q.UpdateFeedMeta`)
are applied to the state just as the queries specify. -/
def refreshFeedInternal (purgeDays : Int) (now : Int) (fetchRes : FetchOutcome)
    (st : RefreshState) : RefreshState × Option String :=
  if shouldSkipFeed now st.feed then (st, none)
  else
    match fetchRes with
    | FetchOutcome.notModified =>
      let feed1 := updateFeedMeta st.feed
        { title := st.feed.title
          siteUrl := st.feed.siteUrl
          descr := st.feed.descr
          lastUpdated := some now
          lastError := none
          etag := st.feed.etag
          lastModified := st.feed.lastModified
          errorCount := 0 }
      ({ st with feed := feed1 }, none)
    | FetchOutcome.fetchError msg =>
      let feed1 := updateFeedMeta st.feed
        { title := st.feed.title
          siteUrl := st.feed.siteUrl
          descr := st.feed.descr
          lastUpdated := some now
          lastError := some msg
          etag := st.feed.etag
          lastModified := st.feed.lastModified
          errorCount := st.feed.errorCount + 1 }
      ({ st with feed := feed1 }, some ("fetch feed " ++ st.feed.url ++ ": " ++ msg))
    | FetchOutcome.success result =>
      let items := refreshFilterStep purgeDays now result.items
      let title := if result.title = "" then st.feed.title else result.title
      let feed1 := updateFeedMeta st.feed
        { title := title
          siteUrl := result.siteURL
          descr := result.descr
          lastUpdated := some now
          lastError := none
          etag := result.etag
          lastModified := result.lastModified
          errorCount := 0 }
      let articles1 := items.foldl
        (fun arts item => upsertArticle arts (articleOfItem st.feed.id item)) st.articles
      ({ feed := feed1, articles := articles1 }, none)

/-- Translation of the loop body of `refreshAllFeeds` (feed.go lines
297-312): each feed in the batch is refreshed with its own fetch outcome;
a per-feed error is only logged, and the loop continues to the next feed
unconditionally. -/
def refreshAllFeeds (purgeDays : Int) (now : Int) :
    List (RefreshState × FetchOutcome) → List (RefreshState × Option String)
  | [] => []
  | p :: rest =>
    refreshFeedInternal purgeDays now p.2 p.1 :: refreshAllFeeds purgeDays now rest

/-- An `article_states` row for the article's owning user: read/starred
flags. -/
structure ArticleState where
  isRead : Bool
  isStarred : Bool
deriving Repr, DecidableEq

/-- An article row joined with its optional `article_states` row (`none`
when the user has never set any state on the article; the purge queries
use an inner JOIN, so such rows never match). -/
structure ArticleRow where
  id : Int
  publishedAt : Option Int
  state : Option ArticleState
deriving Repr, DecidableEq

/-- The shared WHERE clause of `CountOldReadArticles` and
`PurgeOldReadArticles` (db/queries.sql): the inner JOIN on
`article_states` requires a state row; then
`is_read = 1 AND is_starred = 0 AND published_at < cutoff`.
A NULL `published_at` never satisfies the SQL comparison. -/
def oldReadUnstarred (cutoff : Int) (a : ArticleRow) : Bool :=
  match a.state with
  | none => false
  | some s =>
    s.isRead && !s.isStarred &&
      (match a.publishedAt with
       | none => false
       | some t => decide (t < cutoff))

/-- Translation of the `CountOldReadArticles` query. -/
def countOldReadArticles (cutoff : Int) (rows : List ArticleRow) : Nat :=
  (rows.filter (oldReadUnstarred cutoff)).length

/-- Translation of the `PurgeOldReadArticles` query: delete exactly the
candidate set. -/
def purgeOldReadArticles (cutoff : Int) (rows : List ArticleRow) : List ArticleRow :=
  rows.filter (fun a => !(oldReadUnstarred cutoff a))

/-- Translation of `purgeOldArticles` (feed.go lines 340-365): compute the
cutoff, count candidates, stop if zero, otherwise delete them. -/
def purgeOldArticles (purgeDays : Int) (now : Int) (rows : List ArticleRow) : List ArticleRow :=
  let cutoff := addDateDays now (-purgeDays)
  if countOldReadArticles cutoff rows = 0 then rows
  else purgeOldReadArticles cutoff rows

/-- A filesystem entry: a regular file with its byte contents, or a
directory. -/
inductive FsEntry where
  | file : List Nat → FsEntry
  | dir : FsEntry
deriving Repr, DecidableEq

/-- A flat filesystem: an association list from path to entry. -/
abbrev FileSystem := List (String × FsEntry)

/-- `os.Stat`-style lookup of a path. -/
def fsLookup (fs : FileSystem) (p : String) : Option FsEntry :=
  match fs.find? (fun e => e.1 == p) with
  | some e => some e.2
  | none => none

/-- `os.Remove` of a path (removing a path that is absent is the
`os.IsNotExist` case, which `Restore` tolerates). -/
def fsRemove (fs : FileSystem) (p : String) : FileSystem :=
  fs.filter (fun e => !(e.1 == p))

/-- `os.WriteFile`: create or truncate the file at the path. -/
def fsWrite (fs : FileSystem) (p : String) (data : List Nat) : FileSystem :=
  fsRemove fs p ++ [(p, FsEntry.file data)]

/-- Translation of `Restore` (db/backup.go lines 158-200). The SQLite
validation (`sql.Open` in read-only mode plus `Ping`) is an oracle
`validDB` on the file's bytes. Returns the filesystem after the call and
the error (`none` for nil). Validation runs before any removal or write:
the stat, directory, emptiness and database checks all return with the
filesystem untouched. -/
def Restore (validDB : List Nat → Bool) (fs : FileSystem)
    (backupPath targetDBPath : String) : FileSystem × Option String :=
  match fsLookup fs backupPath with
  | none => (fs, some "backup file: stat error")
  | some FsEntry.dir => (fs, some "backup path is a directory, not a file")
  | some (FsEntry.file data) =>
    if data.length = 0 then (fs, some "backup file is empty")
    else if !validDB data then
      (fs, some "backup file is not a valid SQLite database")
    else
      let fs1 := fsRemove fs targetDBPath
      let fs2 := fsRemove fs1 (targetDBPath ++ "-wal")
      let fs3 := fsRemove fs2 (targetDBPath ++ "-shm")
      (fsWrite fs3 targetDBPath data, none)

/-- Go `strings.HasSuffix s p`, byte-wise on the characters. -/
def goHasSuffix (s p : String) : Bool := p.data.isSuffixOf s.data

/-- Go `strings.HasPrefix(s, "gorss-")`, byte-wise on the characters. -/
def goStartsWithGorss (s : String) : Bool := "gorss-".data.isPrefixOf s.data

/-- The backup-candidate test of `PruneBackups` (db/backup.go line 132):
`strings.HasPrefix(name, "gorss-") && strings.HasSuffix(name, ".db")`.
Only the fixed head and the fixed extension are checked; the middle of the
name is not inspected. -/
def isBackupName (name : String) : Bool :=
  goStartsWithGorss name && goHasSuffix name ".db"

/-- Byte-wise lexicographic order on names, the order `sort.Strings`
uses on Go strings. -/
def leName : List Char → List Char → Bool
  | [], _ => true
  | _ :: _, [] => false
  | c :: cs, d :: ds =>
    if c.toNat < d.toNat then true
    else if d.toNat < c.toNat then false
    else leName cs ds

/-- Insertion of a name into a sorted list (helper for `sortNames`). -/
def insertName (x : String) : List String → List String
  | [] => [x]
  | y :: ys => if leName x.data y.data then x :: y :: ys else y :: insertName x ys

/-- `sort.Strings`: sort names ascending in byte-wise lexicographic
order. -/
def sortNames (xs : List String) : List String := xs.foldr insertName []

/-- Translation of `PruneBackups` (db/backup.go lines 115-153), acting on
the listing of the backup directory. `keep <= 0` is a no-op; directory
entries are skipped; candidates are exactly the names passing
`isBackupName`; after an ascending sort, all but the last `keep` candidate
names are removed (removal failures are logged and skipped in Go; the
model's removals succeed). -/
def PruneBackups (dir : List (String × FsEntry)) (keep : Int) : List (String × FsEntry) :=
  if keep ≤ 0 then dir
  else
    let backups := (dir.filter (fun e =>
      (match e.2 with | FsEntry.dir => false | FsEntry.file _ => true)
        && isBackupName e.1)).map (fun e => e.1)
    let sorted := sortNames backups
    if (sorted.length : Int) ≤ keep then dir
    else
      let toRemove := sorted.take (sorted.length - keep.toNat)
      dir.filter (fun e => !(toRemove.contains e.1))

/-- Modelled from the spec: the full snapshot naming shape of §6,
`gorss-YYYY-MM-DD-HHMMSS.db`, with a well-formed embedded timestamp
(the shape Go's `time.Parse("2006-01-02-150405", ·)` accepts). This
definition follows the spec's words, for comparison with `PruneBackups`
above, which is translated from the source. -/
def timestampWellFormed (cs : List Char) : Bool :=
  match cs with
  | [y1, y2, y3, y4, a1, mo1, mo2, a2, dy1, dy2, a3, h1, h2, mi1, mi2, se1, se2] =>
    y1.isDigit && y2.isDigit && y3.isDigit && y4.isDigit &&
    a1 == '-' && a2 == '-' && a3 == '-' &&
    mo1.isDigit && mo2.isDigit && dy1.isDigit && dy2.isDigit &&
    h1.isDigit && h2.isDigit && mi1.isDigit && mi2.isDigit &&
    se1.isDigit && se2.isDigit &&
    (let mo := 10 * (mo1.toNat - 48) + (mo2.toNat - 48)
     let dy := 10 * (dy1.toNat - 48) + (dy2.toNat - 48)
     let hh := 10 * (h1.toNat - 48) + (h2.toNat - 48)
     let mi := 10 * (mi1.toNat - 48) + (mi2.toNat - 48)
     let se := 10 * (se1.toNat - 48) + (se2.toNat - 48)
     decide (1 ≤ mo) && decide (mo ≤ 12) && decide (1 ≤ dy) && decide (dy ≤ 31) &&
       decide (hh ≤ 23) && decide (mi ≤ 59) && decide (se ≤ 59))
  | _ => false

/-- Modelled from the spec: a name matches the snapshot naming convention
iff it is the fixed head `gorss-`, a well-formed timestamp, and the fixed
extension `.db`. -/
def matchesSnapshotShape (name : String) : Bool :=
  goStartsWithGorss name && goHasSuffix name ".db" &&
    timestampWellFormed ((name.data.drop 6).dropLast.dropLast.dropLast)

/-! ## Theorems settling the claims -/

/-- C2: `shouldSkipFeed` returns false whenever the error count is zero or
no prior attempt timestamp is recorded; otherwise it returns true if and
only if `now` is strictly before the last attempt plus
`min(2^min(errorCount, 5), 24)` hours (windows of 2, 4, 8, 16 hours, then
capped at 24 hours from errorCount 5 on). -/
theorem shouldSkipFeed_backoff_spec (now : Int) (f : Feed) :
    shouldSkipFeed now f =
      match f.lastUpdated with
      | none => false
      | some lastAttempt =>
        if f.errorCount = 0 then false
        else decide (now < lastAttempt + ((min (2 ^ min f.errorCount 5) 24 : Nat) : Int) * hourNS) := by
  have hshift : (1 : Nat) <<< min f.errorCount 5 = 2 ^ min f.errorCount 5 := by
    simp [Nat.shiftLeft_eq]
  have hmin : (if 2 ^ min f.errorCount 5 > maxBackoffHours then maxBackoffHours
      else 2 ^ min f.errorCount 5) = min (2 ^ min f.errorCount 5) 24 := by
    by_cases hc : 2 ^ min f.errorCount 5 ≤ 24
    · rw [if_neg (by simp [maxBackoffHours]; omega), Nat.min_eq_left hc]
    · rw [if_pos (by simp [maxBackoffHours]; omega), Nat.min_eq_right (by omega)]
      rfl
  unfold shouldSkipFeed
  cases hl : f.lastUpdated with
  | none => simp [hl]
  | some t =>
    by_cases he : f.errorCount = 0
    · simp [he, hl]
    · simp [he, hl, hshift, hmin]

/-- C7: `filterOldItems` returns exactly the items with no published
timestamp or published strictly after the cutoff, in their original
relative order (it equals `List.filter` of the keep-condition, which is
stable); the refresh-path age-filter step applies it exactly when the
configured horizon is positive (non-positive disables it); and the
subscribe-path and OPML-import-path age-filter steps are the same function
of the same configured horizon. -/
theorem ageFilter_spec (items : List FeedItem) (cutoff purgeDays now : Int) :
    filterOldItems items cutoff = items.filter (keepItem cutoff)
    ∧ refreshFilterStep purgeDays now items
        = (if purgeDays > 0 then items.filter (keepItem (addDateDays now (-purgeDays))) else items)
    ∧ subscribeFilterStep purgeDays now items = refreshFilterStep purgeDays now items
    ∧ importFilterStep purgeDays now items = refreshFilterStep purgeDays now items := by
  have hfold : ∀ (cut : Int) (l acc : List FeedItem),
      l.foldl (fun filtered item =>
        if keepItem cut item then filtered ++ [item] else filtered) acc
        = acc ++ l.filter (keepItem cut) := by
    intro cut l
    induction l with
    | nil => simp
    | cons x xs ih =>
      intro acc
      by_cases hk : keepItem cut x <;>
        simp [List.foldl_cons, hk, ih, List.filter_cons]
  have hfilter : ∀ cut : Int, filterOldItems items cut = items.filter (keepItem cut) := by
    intro cut
    simpa using hfold cut items []
  refine ⟨hfilter cutoff, ?_, rfl, rfl⟩
  unfold refreshFilterStep
  by_cases hp : purgeDays > 0 <;> simp [hp, hfilter]

/-- A feed row with stored metadata and no prior errors, used as a concrete
refresh input. -/
def feedPrior : Feed :=
  { id := 1
    url := "http://example.com/feed"
    title := "Old Title"
    siteUrl := "http://old.example.com"
    descr := "old words"
    etag := "W/\x22abc\x22"
    lastModified := "Mon, 01 Jan 2024 00:00:00 GMT"
    errorCount := 0
    lastUpdated := some 0
    lastError := none }

/-- A concrete store state for `feedPrior`. -/
def statePrior : RefreshState := { feed := feedPrior, articles := [] }

/-- A parsed fetch result whose site URL and description are empty. -/
def resultEmptyMeta : FeedFetchResult :=
  { title := "New Title"
    siteURL := ""
    descr := ""
    items := []
    etag := ""
    lastModified := "" }

/-- C4 counterexample: refreshing `feedPrior` with a successful fetch whose
parsed site URL and description are empty overwrites the previously stored
non-empty site URL and description with the empty string, contradicting
the claim that an empty parsed value never erases the stored one. -/
theorem emptySiteUrl_erases_stored :
    feedPrior.siteUrl = "http://old.example.com"
    ∧ feedPrior.descr = "old words"
    ∧ resultEmptyMeta.siteURL = ""
    ∧ resultEmptyMeta.descr = ""
    ∧ (refreshFeedInternal 0 5 (FetchOutcome.success resultEmptyMeta) statePrior).1.feed.siteUrl
        = ""
    ∧ (refreshFeedInternal 0 5 (FetchOutcome.success resultEmptyMeta) statePrior).1.feed.descr
        = "" :=
  ⟨rfl, rfl, rfl, rfl, rfl, rfl⟩

/-- C4 amended: on a successful (non-304, non-skipped) refresh, the stored
title is replaced by the parsed title only when that parsed title is
non-empty, while the stored site URL and description are replaced by the
parsed values unconditionally, even when those are empty. -/
theorem success_metadata_update (purgeDays now : Int) (res : FeedFetchResult)
    (st : RefreshState) (h : shouldSkipFeed now st.feed = false) :
    (refreshFeedInternal purgeDays now (FetchOutcome.success res) st).1.feed.title
        = (if res.title = "" then st.feed.title else res.title)
    ∧ (refreshFeedInternal purgeDays now (FetchOutcome.success res) st).1.feed.siteUrl
        = res.siteURL
    ∧ (refreshFeedInternal purgeDays now (FetchOutcome.success res) st).1.feed.descr
        = res.descr := by
  refine ⟨?_, ?_, ?_⟩ <;> simp [refreshFeedInternal, h, updateFeedMeta]

/-- Witness for `success_metadata_update` at a concrete input. -/
theorem success_metadata_update_witness :
    shouldSkipFeed 5 statePrior.feed = false
    ∧ ((refreshFeedInternal 0 5 (FetchOutcome.success resultEmptyMeta) statePrior).1.feed.title
        = (if resultEmptyMeta.title = "" then statePrior.feed.title else resultEmptyMeta.title)
      ∧ (refreshFeedInternal 0 5 (FetchOutcome.success resultEmptyMeta) statePrior).1.feed.siteUrl
        = resultEmptyMeta.siteURL
      ∧ (refreshFeedInternal 0 5 (FetchOutcome.success resultEmptyMeta) statePrior).1.feed.descr
        = resultEmptyMeta.descr) :=
  ⟨by decide, success_metadata_update 0 5 resultEmptyMeta statePrior (by decide)⟩

/-- C5: on the NotModified sentinel, the refresh returns no error, updates
the attempt timestamp, resets the error count to zero, and leaves the
stored caching validators, title, site URL, description, and all article
rows unchanged. -/
theorem notModified_frame (purgeDays now : Int) (st : RefreshState)
    (h : shouldSkipFeed now st.feed = false) :
    (refreshFeedInternal purgeDays now FetchOutcome.notModified st).2 = none
    ∧ (refreshFeedInternal purgeDays now FetchOutcome.notModified st).1.feed.lastUpdated
        = some now
    ∧ (refreshFeedInternal purgeDays now FetchOutcome.notModified st).1.feed.errorCount = 0
    ∧ (refreshFeedInternal purgeDays now FetchOutcome.notModified st).1.feed.etag
        = st.feed.etag
    ∧ (refreshFeedInternal purgeDays now FetchOutcome.notModified st).1.feed.lastModified
        = st.feed.lastModified
    ∧ (refreshFeedInternal purgeDays now FetchOutcome.notModified st).1.feed.title
        = st.feed.title
    ∧ (refreshFeedInternal purgeDays now FetchOutcome.notModified st).1.feed.siteUrl
        = st.feed.siteUrl
    ∧ (refreshFeedInternal purgeDays now FetchOutcome.notModified st).1.feed.descr
        = st.feed.descr
    ∧ (refreshFeedInternal purgeDays now FetchOutcome.notModified st).1.articles
        = st.articles := by
  refine ⟨?_, ?_, ?_, ?_, ?_, ?_, ?_, ?_, ?_⟩ <;>
    simp [refreshFeedInternal, h, updateFeedMeta]

/-- Witness for `notModified_frame` at a concrete input. -/
theorem notModified_frame_witness :
    shouldSkipFeed 5 statePrior.feed = false
    ∧ ((refreshFeedInternal 3 5 FetchOutcome.notModified statePrior).2 = none
      ∧ (refreshFeedInternal 3 5 FetchOutcome.notModified statePrior).1.feed.lastUpdated
          = some 5
      ∧ (refreshFeedInternal 3 5 FetchOutcome.notModified statePrior).1.feed.errorCount = 0
      ∧ (refreshFeedInternal 3 5 FetchOutcome.notModified statePrior).1.feed.etag
          = statePrior.feed.etag
      ∧ (refreshFeedInternal 3 5 FetchOutcome.notModified statePrior).1.feed.lastModified
          = statePrior.feed.lastModified
      ∧ (refreshFeedInternal 3 5 FetchOutcome.notModified statePrior).1.feed.title
          = statePrior.feed.title
      ∧ (refreshFeedInternal 3 5 FetchOutcome.notModified statePrior).1.feed.siteUrl
          = statePrior.feed.siteUrl
      ∧ (refreshFeedInternal 3 5 FetchOutcome.notModified statePrior).1.feed.descr
          = statePrior.feed.descr
      ∧ (refreshFeedInternal 3 5 FetchOutcome.notModified statePrior).1.articles
          = statePrior.articles) :=
  ⟨by decide, notModified_frame 3 5 statePrior (by decide)⟩

/-- C6: the consecutive error count is reset to exactly zero by a
not-modified or successful refresh and incremented by exactly one by a
failed fetch attempt, which also persists the error message and the
attempt timestamp and returns the error to the caller; and the batch of
`refreshAllFeeds` processes every feed independently, so one feed's
failure never aborts the rest of the batch. -/
theorem errorCount_invariant (purgeDays now : Int) (st : RefreshState) (msg : String)
    (res : FeedFetchResult) (batch : List (RefreshState × FetchOutcome))
    (h : shouldSkipFeed now st.feed = false) :
    (refreshFeedInternal purgeDays now FetchOutcome.notModified st).1.feed.errorCount = 0
    ∧ (refreshFeedInternal purgeDays now (FetchOutcome.success res) st).1.feed.errorCount = 0
    ∧ (refreshFeedInternal purgeDays now (FetchOutcome.fetchError msg) st).1.feed.errorCount
        = st.feed.errorCount + 1
    ∧ (refreshFeedInternal purgeDays now (FetchOutcome.fetchError msg) st).1.feed.lastError
        = some msg
    ∧ (refreshFeedInternal purgeDays now (FetchOutcome.fetchError msg) st).1.feed.lastUpdated
        = some now
    ∧ (refreshFeedInternal purgeDays now (FetchOutcome.fetchError msg) st).2
        = some ("fetch feed " ++ st.feed.url ++ ": " ++ msg)
    ∧ refreshAllFeeds purgeDays now batch
        = batch.map (fun p => refreshFeedInternal purgeDays now p.2 p.1) := by
  have hmap : ∀ b : List (RefreshState × FetchOutcome),
      refreshAllFeeds purgeDays now b
        = b.map (fun p => refreshFeedInternal purgeDays now p.2 p.1) := by
    intro b
    induction b with
    | nil => rfl
    | cons p rest ih => simp [refreshAllFeeds, ih]
  refine ⟨?_, ?_, ?_, ?_, ?_, ?_, hmap batch⟩ <;>
    simp [refreshFeedInternal, h, updateFeedMeta]

/-- Witness for `errorCount_invariant` at a concrete input. -/
theorem errorCount_invariant_witness :
    shouldSkipFeed 5 statePrior.feed = false
    ∧ ((refreshFeedInternal 0 5 FetchOutcome.notModified statePrior).1.feed.errorCount = 0
      ∧ (refreshFeedInternal 0 5 (FetchOutcome.success resultEmptyMeta)
          statePrior).1.feed.errorCount = 0
      ∧ (refreshFeedInternal 0 5 (FetchOutcome.fetchError "boom")
          statePrior).1.feed.errorCount = statePrior.feed.errorCount + 1
      ∧ (refreshFeedInternal 0 5 (FetchOutcome.fetchError "boom")
          statePrior).1.feed.lastError = some "boom"
      ∧ (refreshFeedInternal 0 5 (FetchOutcome.fetchError "boom")
          statePrior).1.feed.lastUpdated = some 5
      ∧ (refreshFeedInternal 0 5 (FetchOutcome.fetchError "boom") statePrior).2
          = some ("fetch feed " ++ statePrior.feed.url ++ ": " ++ "boom")
      ∧ refreshAllFeeds 0 5 [(statePrior, FetchOutcome.fetchError "boom")]
          = [(statePrior, FetchOutcome.fetchError "boom")].map
              (fun p => refreshFeedInternal 0 5 p.2 p.1)) :=
  ⟨by decide,
    errorCount_invariant 0 5 statePrior "boom" resultEmptyMeta
      [(statePrior, FetchOutcome.fetchError "boom")] (by decide)⟩

/-- A row is starred when it has a state row with the starred flag set
(only such rows are starred in the SQL sense `s.is_starred = 1`). -/
def isStarredRow (a : ArticleRow) : Bool :=
  match a.state with
  | none => false
  | some s => s.isStarred

/-- C8: a starred article is never deleted by the purge: it fails the
candidate predicate for every cutoff (so it contributes to neither the
candidate count nor the delete set), it survives the deletion query, and
it survives a whole `purgeOldArticles` run, regardless of its age,
published timestamp, or read flag. -/
theorem starred_never_purged (purgeDays now cutoff : Int) (rows : List ArticleRow)
    (a : ArticleRow) (hmem : a ∈ rows) (hstar : isStarredRow a = true) :
    oldReadUnstarred cutoff a = false
    ∧ countOldReadArticles cutoff (a :: rows) = countOldReadArticles cutoff rows
    ∧ a ∈ purgeOldReadArticles cutoff rows
    ∧ a ∈ purgeOldArticles purgeDays now rows := by
  have hnot : ∀ c : Int, oldReadUnstarred c a = false := by
    intro c
    unfold isStarredRow at hstar
    unfold oldReadUnstarred
    cases hs : a.state with
    | none => rfl
    | some s =>
      rw [hs] at hstar
      simp only [] at hstar
      simp [hstar]
  refine ⟨hnot cutoff, ?_, ?_, ?_⟩
  · simp [countOldReadArticles, List.filter_cons, hnot]
  · exact List.mem_filter.mpr ⟨hmem, by simp [hnot]⟩
  · unfold purgeOldArticles
    by_cases hc : countOldReadArticles (addDateDays now (-purgeDays)) rows = 0
    · simpa [hc] using hmem
    · simp only [if_neg hc]
      exact List.mem_filter.mpr ⟨hmem, by simp [hnot]⟩

/-- A starred, read, very old article row. -/
def starredOldRow : ArticleRow :=
  { id := 7, publishedAt := some (-1000), state := some { isRead := true, isStarred := true } }

/-- Witness for `starred_never_purged` at a concrete input. -/
theorem starred_never_purged_witness :
    starredOldRow ∈ [starredOldRow]
    ∧ isStarredRow starredOldRow = true
    ∧ (oldReadUnstarred 0 starredOldRow = false
      ∧ countOldReadArticles 0 (starredOldRow :: [starredOldRow])
          = countOldReadArticles 0 [starredOldRow]
      ∧ starredOldRow ∈ purgeOldReadArticles 0 [starredOldRow]
      ∧ starredOldRow ∈ purgeOldArticles 30 0 [starredOldRow]) :=
  ⟨by decide, by decide,
    starred_never_purged 30 0 0 [starredOldRow] starredOldRow (by decide) (by decide)⟩

/-- C1: when any of `Restore`'s validation steps fails — the backup path
does not exist, is a directory, is an empty file, or does not open as a
valid database — the call returns a non-nil error and the filesystem
(in particular the target path and its `-wal` and `-shm` side files) is
left completely unmodified: validation is decided before any removal or
write of the target. -/
theorem restore_validation_frame (validDB : List Nat → Bool) (fs : FileSystem)
    (backupPath targetDBPath : String)
    (h : fsLookup fs backupPath = none
      ∨ fsLookup fs backupPath = some FsEntry.dir
      ∨ (∃ d, fsLookup fs backupPath = some (FsEntry.file d)
          ∧ (d.length = 0 ∨ validDB d = false))) :
    (Restore validDB fs backupPath targetDBPath).1 = fs
    ∧ (Restore validDB fs backupPath targetDBPath).2.isSome = true := by
  unfold Restore
  rcases h with h | h | ⟨d, hd, hcase⟩
  · simp [h]
  · simp [h]
  · rcases hcase with hlen | hvalid
    · simp [hd, hlen]
    · by_cases hz : d.length = 0
      · simp [hd, hz]
      · simp [hd, hz, hvalid]

/-- A concrete filesystem: a live database file set at `app.db` and a
directory named `backups`; there is no file at `missing.db`. -/
def liveFs : FileSystem :=
  [("app.db", FsEntry.file [7, 7]), ("app.db-wal", FsEntry.file [1]),
   ("app.db-shm", FsEntry.file [2]), ("backups", FsEntry.dir),
   ("empty.db", FsEntry.file []), ("garbage.db", FsEntry.file [9])]

/-- A validity oracle that rejects the bytes of `garbage.db`. -/
def validDBExceptGarbage (d : List Nat) : Bool := !(d == [9])

/-- Witness for `restore_validation_frame`: all four rejection cases at
concrete inputs, each leaving `liveFs` unchanged with a non-nil error. -/
theorem restore_validation_frame_witness :
    (fsLookup liveFs "missing.db" = none
      ∧ (Restore validDBExceptGarbage liveFs "missing.db" "app.db").1 = liveFs
      ∧ (Restore validDBExceptGarbage liveFs "missing.db" "app.db").2.isSome = true)
    ∧ (fsLookup liveFs "backups" = some FsEntry.dir
      ∧ (Restore validDBExceptGarbage liveFs "backups" "app.db").1 = liveFs
      ∧ (Restore validDBExceptGarbage liveFs "backups" "app.db").2.isSome = true)
    ∧ (fsLookup liveFs "empty.db" = some (FsEntry.file [])
      ∧ (Restore validDBExceptGarbage liveFs "empty.db" "app.db").1 = liveFs
      ∧ (Restore validDBExceptGarbage liveFs "empty.db" "app.db").2.isSome = true)
    ∧ (fsLookup liveFs "garbage.db" = some (FsEntry.file [9])
      ∧ validDBExceptGarbage [9] = false
      ∧ (Restore validDBExceptGarbage liveFs "garbage.db" "app.db").1 = liveFs
      ∧ (Restore validDBExceptGarbage liveFs "garbage.db" "app.db").2.isSome = true) := by
  have h1 := restore_validation_frame validDBExceptGarbage liveFs "missing.db" "app.db"
    (Or.inl (by decide))
  have h2 := restore_validation_frame validDBExceptGarbage liveFs "backups" "app.db"
    (Or.inr (Or.inl (by decide)))
  have h3 := restore_validation_frame validDBExceptGarbage liveFs "empty.db" "app.db"
    (Or.inr (Or.inr ⟨[], by decide, Or.inl (by decide)⟩))
  have h4 := restore_validation_frame validDBExceptGarbage liveFs "garbage.db" "app.db"
    (Or.inr (Or.inr ⟨[9], by decide, Or.inr (by decide)⟩))
  exact ⟨⟨by decide, h1.1, h1.2⟩, ⟨by decide, h2.1, h2.2⟩,
    ⟨by decide, h3.1, h3.2⟩, ⟨by decide, by decide, h4.1, h4.2⟩⟩

/-- Membership of `insertName`: inserting `y` into `l` yields the elements
of `l` plus `y`. -/
theorem mem_insertName (x y : String) (l : List String) :
    x ∈ insertName y l → x = y ∨ x ∈ l := by
  induction l with
  | nil => simp [insertName]
  | cons z zs ih =>
    unfold insertName
    by_cases hle : leName y.data z.data
    · intro hx
      simp only [if_pos hle, List.mem_cons] at hx
      rcases hx with hx | hx | hx
      · exact Or.inl hx
      · exact Or.inr (by simp [hx])
      · exact Or.inr (by simp [hx])
    · intro hx
      simp only [if_neg hle, List.mem_cons] at hx
      rcases hx with hx | hx
      · exact Or.inr (by simp [hx])
      · rcases ih hx with hx2 | hx2
        · exact Or.inl hx2
        · exact Or.inr (by simp [hx2])

/-- Membership of `sortNames`: sorting introduces no new names. -/
theorem mem_sortNames (x : String) (l : List String) :
    x ∈ sortNames l → x ∈ l := by
  induction l with
  | nil => simp [sortNames]
  | cons z zs ih =>
    intro hx
    rcases mem_insertName x z (sortNames zs) hx with hx2 | hx2
    · simp [hx2]
    · simp [ih hx2]

/-- A directory listing with two backup-shaped names whose embedded
timestamps are malformed, and one unrelated file. -/
def dirMixed : List (String × FsEntry) :=
  [("gorss-aaa.db", FsEntry.file [1]), ("gorss-bbb.db", FsEntry.file [2]),
   ("notes.txt", FsEntry.file [3])]

/-- C9 counterexample: `gorss-aaa.db` does not match the full snapshot
naming shape (its embedded timestamp is malformed), yet `PruneBackups`
treats it as a candidate and deletes it at `keep = 1`: candidacy is
decided by the fixed head and extension alone, the timestamp is never
validated. -/
theorem prune_deletes_malformed_timestamp :
    matchesSnapshotShape "gorss-aaa.db" = false
    ∧ ("gorss-aaa.db", FsEntry.file [1]) ∈ dirMixed
    ∧ PruneBackups dirMixed 1
        = [("gorss-bbb.db", FsEntry.file [2]), ("notes.txt", FsEntry.file [3])] := by
  refine ⟨by decide, by decide, by decide⟩

/-- C9 amended: `PruneBackups` considers for deletion only files whose
names carry the fixed head `gorss-` and the fixed extension `.db`; the
embedded timestamp is not validated. Every directory entry whose name
fails that head-and-extension test is left untouched by pruning, for
every keep value. -/
theorem prune_frame (dir : List (String × FsEntry)) (keep : Int)
    (e : String × FsEntry) (hmem : e ∈ dir) (hname : isBackupName e.1 = false) :
    e ∈ PruneBackups dir keep := by
  unfold PruneBackups
  by_cases hk : keep ≤ 0
  · simpa [hk] using hmem
  · simp only [if_neg hk]
    set backups := (dir.filter (fun e =>
      (match e.2 with | FsEntry.dir => false | FsEntry.file _ => true)
        && isBackupName e.1)).map (fun e => e.1) with hbackups
    by_cases hlen : ((sortNames backups).length : Int) ≤ keep
    · simpa [hlen] using hmem
    · simp only [if_neg hlen]
      refine List.mem_filter.mpr ⟨hmem, ?_⟩
      simp only [Bool.not_eq_eq_eq_not, Bool.not_true, Bool.not_eq_true]
      rw [List.contains_eq_any_beq]
      rw [Bool.eq_false_iff]
      intro hany
      rw [List.any_eq_true] at hany
      rcases hany with ⟨x, hxmem, hxeq⟩
      have hxe : e.1 = x := by simpa using hxeq
      have hx2 : x ∈ sortNames backups := List.take_subset _ _ hxmem
      have hx3 : x ∈ backups := mem_sortNames x backups hx2
      rw [← hxe] at hx3
      rw [hbackups, List.mem_map] at hx3
      rcases hx3 with ⟨p, hpmem, hpx⟩
      have hp := List.of_mem_filter hpmem
      rw [Bool.and_eq_true] at hp
      rw [hpx] at hp
      rw [hp.2] at hname
      exact Bool.true_eq_false.mp hname

/-- Witness for `prune_frame`: the unrelated file `notes.txt` survives a
prune of `dirMixed` at `keep = 1`. -/
theorem prune_frame_witness :
    ("notes.txt", FsEntry.file [3]) ∈ dirMixed
    ∧ isBackupName "notes.txt" = false
    ∧ ("notes.txt", FsEntry.file [3]) ∈ PruneBackups dirMixed 1 :=
  ⟨by decide, by decide,
    prune_frame dirMixed 1 ("notes.txt", FsEntry.file [3]) (by decide) (by decide)⟩

/-- Successful-fetch test on an outcome. -/
def FetchOutcome.isSuccessB : FetchOutcome → Bool
  | FetchOutcome.success _ => true
  | _ => false

/-- FetchError test on an outcome. -/
def FetchOutcome.isFetchErrorB : FetchOutcome → Bool
  | FetchOutcome.fetchError _ => true
  | _ => false

/-- Parser-acceptance test. -/
def parseOk : Except String ParsedFeed → Bool
  | Except.ok _ => true
  | Except.error _ => false

/-- A minimal parsed feed document. -/
def parsedMinimal : ParsedFeed := { title := "t", link := "l", descr := "d", items := [] }

/-- A parser oracle representing a response body that gofeed accepts
(e.g. a syntactically valid RSS document served on an error page). -/
def parseAccepts : String → Except String ParsedFeed := fun _ => Except.ok parsedMinimal

/-- C3 counterexample: a response with status 500 whose body the parser
accepts is returned as a successful fetch, not a `FetchError`:
`fetchWithCaching` compares the status only against 304 and otherwise
hands the body to the parser regardless of the status code. -/
theorem status500_parseable_is_success :
    fetchWithCaching parseAccepts (HTTPResult.response 500 "E" "L" "body")
      = FetchOutcome.success
          { title := "t", siteURL := "l", descr := "d", items := [],
            etag := "E", lastModified := "L" } := by
  decide

/-- C3 amended: transport failures and request-creation failures are
always a `FetchError` carrying a human-readable cause; for an HTTP
response, the outcome is a successful fetch exactly when the status is not
304 and the body parses, and a `FetchError` exactly when the status is not
304 and the body fails to parse — the status code itself (404, 500, ...)
is never consulted beyond the comparison with 304, so a non-success status
whose body parses as a feed is treated as a successful fetch. -/
theorem fetch_error_taxonomy (parse : String → Except String ParsedFeed)
    (status : Nat) (etagHeader lastModifiedHeader body msg : String) :
    fetchWithCaching parse (HTTPResult.transportError msg)
        = FetchOutcome.fetchError ("fetch: " ++ msg)
    ∧ fetchWithCaching parse (HTTPResult.requestError msg)
        = FetchOutcome.fetchError ("create request: " ++ msg)
    ∧ (fetchWithCaching parse
        (HTTPResult.response status etagHeader lastModifiedHeader body)).isSuccessB
        = (decide (¬ status = 304) && parseOk (parse body))
    ∧ (fetchWithCaching parse
        (HTTPResult.response status etagHeader lastModifiedHeader body)).isFetchErrorB
        = (decide (¬ status = 304) && !parseOk (parse body)) := by
  refine ⟨rfl, rfl, ?_, ?_⟩ <;>
  · unfold fetchWithCaching statusNotModified
    by_cases hs : status = 304
    · simp [hs, FetchOutcome.isSuccessB, FetchOutcome.isFetchErrorB]
    · cases hp : parse body <;>
        simp [hs, hp, parseOk, FetchOutcome.isSuccessB, FetchOutcome.isFetchErrorB]

end GoRSS
